import Mathlib

/-!
Shallow embedding of the NYC bike-share incremental-load pipeline
(`src/data_loading/prefect_load_station_status.py`, with the transformer
shared verbatim with `src/data_loading/load_station_status.py`), together
with proofs of the specification claims about it.

Python strings are modelled as `List Char`; Python `dict`s produced by
`json.loads` are modelled by the `Json` inductive; `datetime` values by
`PyDateTime`.  External collaborators (Cloud Storage, BigQuery) are
modelled by explicit inputs: the object listing, a read function, and the
destination table's stored `data_fetched_at` column.
-/

/-- Python `str` is modelled as a list of characters. -/
abbrev Str := List Char

/-- Embed a Lean string literal as a Python string value. -/
def str (s : String) : Str := s.data

/-! ### Character and digit utilities (models of `strftime`/`strptime` digits) -/

/-- ASCII decimal digit, as matched by the `%Y%m%d_%H%M%S` directives. -/
abbrev IsDigitC (c : Char) : Prop := 48 ≤ c.toNat ∧ c.toNat ≤ 57

/-- Numeric value of an ASCII digit character (`int` of the matched text). -/
def digitVal (c : Char) : Nat := c.toNat - 48

/-- Last decimal digit of `n`, as a character (used by zero-padded `strftime`). -/
def digitChar (n : Nat) : Char := Char.ofNat (48 + n % 10)

/-- Two-digit zero-padded decimal rendering (`%m`, `%d`, `%H`, `%M`, `%S`). -/
def pad2 (n : Nat) : Str := [digitChar (n / 10), digitChar n]

/-- Four-digit zero-padded decimal rendering (`%Y`). -/
def pad4 (n : Nat) : Str := [digitChar (n / 1000), digitChar (n / 100), digitChar (n / 10), digitChar n]

/-! ### Python string operations used by the pipeline -/

/-- Python `s.split('/')`: split at every `'/'`, keeping empty pieces. -/
def pySplitSlash : Str → List Str
  | [] => [[]]
  | c :: cs =>
    match pySplitSlash cs with
    | [] => [[]]
    | seg :: rest => if c = '/' then [] :: seg :: rest else (c :: seg) :: rest

/-- Python `s.split('/')[-1]`: the part of the key after the last `'/'`. -/
def lastSeg (s : Str) : Str := (pySplitSlash s).getLastD []

/-- Worker for `replaceL`; `fuel` bounds the recursion depth and is
irrelevant as long as it is at least the length of the string
(`replaceGo_fuel`). -/
def replaceGo (pat rep : Str) : Nat → Str → Str
  | _, [] => []
  | 0, s => s
  | fuel + 1, c :: cs =>
    if pat ≠ [] ∧ pat.isPrefixOf (c :: cs) then
      rep ++ replaceGo pat rep fuel (cs.drop (pat.length - 1))
    else
      c :: replaceGo pat rep fuel cs

/-- Python `s.replace(pat, rep)`: replace every non-overlapping occurrence
of `pat`, scanning left to right. -/
def replaceL (pat rep s : Str) : Str := replaceGo pat rep s.length s

/-- Python `s.endswith(suffix)` for the `.json` listing filter. -/
def endsWith (suffix s : Str) : Bool := suffix.isSuffixOf s

/-! ### JSON values (results of `json.loads`) and `json.dumps` -/

/-- A parsed JSON value as produced by `json.loads`. -/
inductive Json where
  | null
  | bool (b : Bool)
  | num (n : Int)
  | str (s : Str)
  | arr (xs : List Json)
  | obj (kvs : List (Str × Json))

/-- Python `d.get(k)`: first value bound to `k`, or `None`. -/
def dictGet : List (Str × Json) → Str → Option Json
  | [], _ => none
  | (k, v) :: rest, key => if k = key then some v else dictGet rest key

/-- Python `d.get(k, dflt)`. -/
def dictGetD (d : List (Str × Json)) (key : Str) (dflt : Json) : Json :=
  (dictGet d key).getD dflt

/-- Hexadecimal digit character (lower case), for `\uXXXX` escapes. -/
def hexDigitChar (n : Nat) : Char :=
  if n % 16 < 10 then Char.ofNat (48 + n % 16) else Char.ofNat (87 + n % 16)

/-- Four-digit hexadecimal rendering for `\uXXXX` escapes. -/
def hex4 (n : Nat) : Str :=
  [hexDigitChar (n / 4096), hexDigitChar (n / 256), hexDigitChar (n / 16), hexDigitChar n]

/-- `json.dumps` escaping of one character (default `ensure_ascii=True`). -/
def escapeJsonChar (c : Char) : Str :=
  if c = '"' then ['\\', '"']
  else if c = '\\' then ['\\', '\\']
  else if c.toNat = 10 then ['\\', 'n']
  else if c.toNat = 9 then ['\\', 't']
  else if c.toNat = 13 then ['\\', 'r']
  else if c.toNat = 8 then ['\\', 'b']
  else if c.toNat = 12 then ['\\', 'f']
  else if 32 ≤ c.toNat ∧ c.toNat ≤ 126 then [c]
  else if c.toNat < 65536 then '\\' :: 'u' :: hex4 c.toNat
  else
    '\\' :: 'u' :: hex4 (55296 + (c.toNat - 65536) / 1024) ++
      '\\' :: 'u' :: hex4 (56320 + (c.toNat - 65536) % 1024)

/-- `json.dumps` rendering of a string value. -/
def dumpJsonString (s : Str) : Str := '"' :: (s.map escapeJsonChar).flatten ++ ['"']

mutual

/-- `json.dumps` with default separators `(', ', ': ')`. -/
def jsonDumps : Json → Str
  | .null => str "null"
  | .bool true => str "true"
  | .bool false => str "false"
  | .num n => str (toString n)
  | .str s => dumpJsonString s
  | .arr xs => '[' :: dumpJsonList xs ++ [']']
  | .obj kvs => '\x7b' :: dumpJsonMembers kvs ++ ['\x7d']

/-- `json.dumps` rendering of array elements. -/
def dumpJsonList : List Json → Str
  | [] => []
  | [x] => jsonDumps x
  | x :: y :: rest => jsonDumps x ++ str ", " ++ dumpJsonList (y :: rest)

/-- `json.dumps` rendering of object members. -/
def dumpJsonMembers : List (Str × Json) → Str
  | [] => []
  | [(k, v)] => dumpJsonString k ++ str ": " ++ jsonDumps v
  | (k, v) :: m :: rest =>
    dumpJsonString k ++ str ": " ++ jsonDumps v ++ str ", " ++ dumpJsonMembers (m :: rest)

end

/-! ### Python `datetime` values -/

/-- A `datetime.datetime` value at second resolution (microsecond 0),
as produced by `datetime.strptime(s, "%Y%m%d_%H%M%S")`. -/
structure PyDateTime where
  year : Nat
  month : Nat
  day : Nat
  hour : Nat
  minute : Nat
  second : Nat
deriving DecidableEq, Repr

/-- Gregorian leap-year rule used by `datetime`. -/
def isLeapYear (y : Nat) : Bool :=
  y % 4 == 0 && (y % 100 != 0 || y % 400 == 0)

/-- Number of days in a month, as validated by the `datetime` constructor. -/
def daysInMonth (y m : Nat) : Nat :=
  if m = 2 then (if isLeapYear y then 29 else 28)
  else if m = 4 ∨ m = 6 ∨ m = 9 ∨ m = 11 then 30
  else 31

/-- Range validation performed by the `datetime` constructor. -/
abbrev ValidDT (t : PyDateTime) : Prop :=
  1 ≤ t.year ∧ t.year ≤ 9999 ∧ 1 ≤ t.month ∧ t.month ≤ 12 ∧
  1 ≤ t.day ∧ t.day ≤ daysInMonth t.year t.month ∧
  t.hour ≤ 23 ∧ t.minute ≤ 59 ∧ t.second ≤ 59

/-! CPython `datetime.strptime(s, "%Y%m%d_%H%M%S")` compiles the format to a
regular expression (`Lib/_strptime.py`, `TimeRE`) and requires the whole
string to be consumed.  The numeric directives allow optional leading
zeros: `%Y` is exactly four digits, while the other directives are
width-flexible alternations matched with backtracking:
  `%m` = `1[0-2]|0[1-9]|[1-9]`,
  `%d` = `3[0-1]|[1-2]\d|0[1-9]|[1-9]| [1-9]`,
  `%H` = `2[0-3]|[0-1]\d|\d`,
  `%M` = `[0-5]\d|\d`,
  `%S` = `6[0-1]|[0-5]\d|\d`.
Each directive is modelled by its list of candidate parses (value and
remaining input) in the regex's preference order, and the match phase
tries them with backtracking. -/

/-- Try field candidates in regex preference order, backtracking into the
continuation `k`. -/
def tryCands {α : Type} (cands : List (Nat × Str)) (k : Nat → Str → Option α) : Option α :=
  match cands with
  | [] => none
  | (v, rest) :: more =>
    match k v rest with
    | some r => some r
    | none => tryCands more k

/-- `%Y`: exactly four digits. -/
def candsY : Str → List (Nat × Str)
  | a :: b :: c :: d :: rest =>
    if IsDigitC a ∧ IsDigitC b ∧ IsDigitC c ∧ IsDigitC d then
      [(digitVal a * 1000 + digitVal b * 100 + digitVal c * 10 + digitVal d, rest)]
    else []
  | _ => []

/-- `%m`: `1[0-2]|0[1-9]|[1-9]`. -/
def candsm (s : Str) : List (Nat × Str) :=
  (match s with
   | a :: b :: rest =>
     if a.toNat = 49 ∧ 48 ≤ b.toNat ∧ b.toNat ≤ 50 then
       [(digitVal a * 10 + digitVal b, rest)]
     else []
   | _ => []) ++
  (match s with
   | a :: b :: rest =>
     if a.toNat = 48 ∧ 49 ≤ b.toNat ∧ b.toNat ≤ 57 then [(digitVal b, rest)] else []
   | _ => []) ++
  (match s with
   | a :: rest => if 49 ≤ a.toNat ∧ a.toNat ≤ 57 then [(digitVal a, rest)] else []
   | _ => [])

/-- `%d`: `3[0-1]|[1-2]\d|0[1-9]|[1-9]| [1-9]`. -/
def candsd (s : Str) : List (Nat × Str) :=
  (match s with
   | a :: b :: rest =>
     if a.toNat = 51 ∧ 48 ≤ b.toNat ∧ b.toNat ≤ 49 then
       [(digitVal a * 10 + digitVal b, rest)]
     else []
   | _ => []) ++
  (match s with
   | a :: b :: rest =>
     if 49 ≤ a.toNat ∧ a.toNat ≤ 50 ∧ IsDigitC b then
       [(digitVal a * 10 + digitVal b, rest)]
     else []
   | _ => []) ++
  (match s with
   | a :: b :: rest =>
     if a.toNat = 48 ∧ 49 ≤ b.toNat ∧ b.toNat ≤ 57 then [(digitVal b, rest)] else []
   | _ => []) ++
  (match s with
   | a :: rest => if 49 ≤ a.toNat ∧ a.toNat ≤ 57 then [(digitVal a, rest)] else []
   | _ => []) ++
  (match s with
   | a :: b :: rest =>
     if a = ' ' ∧ 49 ≤ b.toNat ∧ b.toNat ≤ 57 then [(digitVal b, rest)] else []
   | _ => [])

/-- `%H`: `2[0-3]|[0-1]\d|\d`. -/
def candsH (s : Str) : List (Nat × Str) :=
  (match s with
   | a :: b :: rest =>
     if a.toNat = 50 ∧ 48 ≤ b.toNat ∧ b.toNat ≤ 51 then
       [(digitVal a * 10 + digitVal b, rest)]
     else []
   | _ => []) ++
  (match s with
   | a :: b :: rest =>
     if 48 ≤ a.toNat ∧ a.toNat ≤ 49 ∧ IsDigitC b then
       [(digitVal a * 10 + digitVal b, rest)]
     else []
   | _ => []) ++
  (match s with
   | a :: rest => if IsDigitC a then [(digitVal a, rest)] else []
   | _ => [])

/-- `%M`: `[0-5]\d|\d`. -/
def candsM (s : Str) : List (Nat × Str) :=
  (match s with
   | a :: b :: rest =>
     if 48 ≤ a.toNat ∧ a.toNat ≤ 53 ∧ IsDigitC b then
       [(digitVal a * 10 + digitVal b, rest)]
     else []
   | _ => []) ++
  (match s with
   | a :: rest => if IsDigitC a then [(digitVal a, rest)] else []
   | _ => [])

/-- `%S`: `6[0-1]|[0-5]\d|\d`. -/
def candsS (s : Str) : List (Nat × Str) :=
  (match s with
   | a :: b :: rest =>
     if a.toNat = 54 ∧ 48 ≤ b.toNat ∧ b.toNat ≤ 49 then
       [(digitVal a * 10 + digitVal b, rest)]
     else []
   | _ => []) ++
  (match s with
   | a :: b :: rest =>
     if 48 ≤ a.toNat ∧ a.toNat ≤ 53 ∧ IsDigitC b then
       [(digitVal a * 10 + digitVal b, rest)]
     else []
   | _ => []) ++
  (match s with
   | a :: rest => if IsDigitC a then [(digitVal a, rest)] else []
   | _ => [])

/-- Seconds onward: match `%S` and require the whole string consumed. -/
def sLevelK (y mo d h mi : Nat) (r6 : Str) : Option PyDateTime :=
  tryCands (candsS r6) fun sec r7 =>
    if r7 = [] then some ⟨y, mo, d, h, mi, sec⟩ else none

/-- Minutes onward: match `%M` then continue. -/
def nLevelK (y mo d h : Nat) (r5 : Str) : Option PyDateTime :=
  tryCands (candsM r5) fun mi r6 => sLevelK y mo d h mi r6

/-- Hours onward: match `%H` then continue. -/
def hLevelK (y mo d : Nat) (r4 : Str) : Option PyDateTime :=
  tryCands (candsH r4) fun h r5 => nLevelK y mo d h r5

/-- The literal `_` of the format, then the time fields. -/
def underscoreK (y mo d : Nat) : Str → Option PyDateTime
  | [] => none
  | u :: r4 => if u = '_' then hLevelK y mo d r4 else none

/-- Day onward: match `%d`, then the literal underscore, then continue. -/
def dLevelK (y mo : Nat) (r2 : Str) : Option PyDateTime :=
  tryCands (candsd r2) fun d r3 => underscoreK y mo d r3

/-- Month onward: match `%m` then continue. -/
def moLevelK (y : Nat) (r1 : Str) : Option PyDateTime :=
  tryCands (candsm r1) fun mo r2 => dLevelK y mo r2

/-- The regex-match phase of `datetime.strptime(s, "%Y%m%d_%H%M%S")`: the
first full match of the compiled pattern in backtracking order. -/
def strptimeMatch (s : Str) : Option PyDateTime :=
  tryCands (candsY s) fun y r1 => moLevelK y r1

/-- `datetime.strptime(s, "%Y%m%d_%H%M%S")`: the regex match (with
CPython's optional-leading-zero flexibility), then the `datetime`
constructor's range validation; `none` models the `ValueError` raised on
failure. -/
def strptime_YmdHMS (s : Str) : Option PyDateTime :=
  match strptimeMatch s with
  | none => none
  | some t => if ValidDT t then some t else none

/-- `t.strftime("%Y%m%d_%H%M%S")`, as used by the Ledger Reader to normalize
stored `data_fetched_at` values back to the filename format. -/
def strftime_YmdHMS (t : PyDateTime) : Str :=
  pad4 t.year ++ pad2 t.month ++ pad2 t.day ++ '_' ::
    (pad2 t.hour ++ pad2 t.minute ++ pad2 t.second)

/-- `t.isoformat()` at second resolution: `YYYY-MM-DDTHH:MM:SS`. -/
def isoformat (t : PyDateTime) : Str :=
  pad4 t.year ++ '-' :: (pad2 t.month ++ '-' :: (pad2 t.day ++ 'T' ::
    (pad2 t.hour ++ ':' :: (pad2 t.minute ++ ':' :: pad2 t.second))))

/-- `t.date().isoformat()`: `YYYY-MM-DD`. -/
def dateIsoformat (t : PyDateTime) : Str :=
  pad4 t.year ++ '-' :: (pad2 t.month ++ '-' :: pad2 t.day)

/-- The fixed filename timestamp grammar `YYYYMMDD_HHMMSS`: eight ASCII
digits, an underscore, six ASCII digits. -/
def isTsShape (t : Str) : Prop :=
  match t with
  | [y1, y2, y3, y4, mo1, mo2, d1, d2, u, h1, h2, n1, n2, s1, s2] =>
    u = '_' ∧ IsDigitC y1 ∧ IsDigitC y2 ∧ IsDigitC y3 ∧ IsDigitC y4 ∧
    IsDigitC mo1 ∧ IsDigitC mo2 ∧ IsDigitC d1 ∧ IsDigitC d2 ∧
    IsDigitC h1 ∧ IsDigitC h2 ∧ IsDigitC n1 ∧ IsDigitC n2 ∧
    IsDigitC s1 ∧ IsDigitC s2
  | _ => False

instance (t : Str) : Decidable (isTsShape t) := by
  unfold isTsShape
  split
  · exact instDecidableAnd
  · exact instDecidableFalse

/-! ### The pipeline functions, translated from
`src/data_loading/prefect_load_station_status.py` -/

/-- The two extraction lines shared by `filter_new_files` and
`transform_to_bigquery_row`:
`filename = blob_name.split('/')[-1]` followed by
`filename.replace('status_', '').replace('.json', '')`. -/
def extract_timestamp (blob_name : Str) : Str :=
  replaceL (str ".json") [] (replaceL (str "status_") [] (lastSeg blob_name))

/-- Task `get_already_loaded_timestamps`: the query result
`SELECT DISTINCT data_fetched_at` is modelled as `some` of the stored
column values, or `none` when the table is missing or the query fails
(the `except` branch, which returns the empty set). -/
def get_already_loaded_timestamps (queryResult : Option (List PyDateTime)) : List Str :=
  match queryResult with
  | none => []
  | some stamps => (stamps.map strftime_YmdHMS).dedup

/-- Task `filter_new_files`: keep the blobs whose extracted timestamp string
is not among the already-loaded timestamps. -/
def filter_new_files (all_files : List Str) (loaded_timestamps : List Str) : List Str :=
  all_files.filter (fun blob_name => !(loaded_timestamps.contains (extract_timestamp blob_name)))

/-- Task `list_json_files`: names of the listed objects that end in `.json`. -/
def list_json_files (objects : List Str) : List Str :=
  objects.filter (fun name => endsWith (str ".json") name)

/-- The error raised inside `transform_to_bigquery_row`: `ValueError` from
`datetime.strptime` on a bad key, or `AttributeError` from calling `.get`
on a non-dict `data` value. -/
inductive TransformError where
  | valueError
  | attributeError
deriving DecidableEq, Repr

/-- One row of the `raw_station_status` destination table, as built by
`transform_to_bigquery_row`.  Absent payload fields (`dict.get` returning
`None`) are `none`, which loads as SQL NULL. -/
structure Row where
  last_updated : Option Json
  ttl : Option Json
  version : Option Json
  data_fetched_at : Str
  date_partition : Str
  stations : Str

/-- Task `transform_to_bigquery_row` (identical in both loader scripts):
extract the timestamp from the filename, parse it, and assemble the row.
`json_data` is the dict produced by `json.loads`. -/
def transform_to_bigquery_row (json_data : List (Str × Json)) (blob_name : Str) :
    Except TransformError Row :=
  match strptime_YmdHMS (extract_timestamp blob_name) with
  | none => .error .valueError
  | some timestamp =>
    match dictGetD json_data (str "data") (Json.obj []) with
    | Json.obj dataKvs =>
      .ok { last_updated := dictGet json_data (str "last_updated")
          , ttl := dictGet json_data (str "ttl")
          , version := dictGet json_data (str "version")
          , data_fetched_at := isoformat timestamp
          , date_partition := dateIsoformat timestamp
          , stations := jsonDumps (dictGetD dataKvs (str "stations") (Json.arr [])) }
    | _ => .error .attributeError

/-- The body of the per-file `try` block in the flow: read and parse the
blob (`none` models a terminal read failure after retries, including a
`json.loads` failure), then transform; any raised error is caught by the
`except` and yields no row. -/
def process_snapshot (readJson : Str → Option Json) (blob_name : Str) : Option Row :=
  match readJson blob_name with
  | none => none
  | some (Json.obj kvs) => (transform_to_bigquery_row kvs blob_name).toOption
  | some _ => none

/-- The externally observable summary of one run: candidate key count,
rows handed to the batch loader, and per-item skip count. -/
structure RunReport where
  candidates : Nat
  loaded : List Row
  skipped : Nat

/-- The flow `load_station_status_flow`: read the ledger, list the store,
filter to new files, process each new file with per-item error isolation,
and batch-load the accumulated rows. -/
def load_station_status_flow (queryResult : Option (List PyDateTime))
    (objects : List Str) (readJson : Str → Option Json) : RunReport :=
  let loaded_timestamps := get_already_loaded_timestamps queryResult
  let all_files := list_json_files objects
  if all_files.isEmpty then ⟨0, [], 0⟩
  else
    let new_files := filter_new_files all_files loaded_timestamps
    if new_files.isEmpty then ⟨all_files.length, [], 0⟩
    else
      let all_rows := new_files.filterMap (process_snapshot readJson)
      ⟨all_files.length, all_rows, new_files.length - all_rows.length⟩

theorem char_eq_of_toNat_eq {c d : Char} (h : c.toNat = d.toNat) : c = d := by
  have h2 := congrArg Char.ofNat h
  rwa [Char.ofNat_toNat, Char.ofNat_toNat] at h2

theorem digit_ne {c : Char} (h : IsDigitC c) (d : Char)
    (hd : d.toNat < 48 ∨ 57 < d.toNat) : c ≠ d := by
  intro he
  subst he
  omega

theorem replaceGo_fuel (pat rep : Str) :
    ∀ (fuel fuel' : Nat) (s : Str), s.length ≤ fuel → s.length ≤ fuel' →
      replaceGo pat rep fuel s = replaceGo pat rep fuel' s := by
  intro fuel
  induction fuel with
  | zero =>
    intro fuel' s hs _
    have : s = [] := List.length_eq_zero.mp (Nat.le_zero.mp hs)
    subst this
    cases fuel' <;> rfl
  | succ f ih =>
    intro fuel' s hs hs'
    cases s with
    | nil => cases fuel' <;> rfl
    | cons c cs =>
      cases fuel' with
      | zero => simp at hs'
      | succ f' =>
        simp only [replaceGo]
        simp only [List.length_cons] at hs hs'
        by_cases h : pat ≠ [] ∧ pat.isPrefixOf (c :: cs)
        · rw [if_pos h, if_pos h]
          have hd : (cs.drop (pat.length - 1)).length ≤ cs.length := by
            simp only [List.length_drop]; omega
          rw [ih f' _ (by omega) (by omega)]
        · rw [if_neg h, if_neg h]
          rw [ih f' cs (by omega) (by omega)]

theorem replaceL_cons_match {pat : Str} (rep : Str) {c : Char} {cs : Str}
    (hp : pat ≠ []) (hm : pat.isPrefixOf (c :: cs)) :
    replaceL pat rep (c :: cs) = rep ++ replaceL pat rep (cs.drop (pat.length - 1)) := by
  unfold replaceL
  simp only [List.length_cons, replaceGo, if_pos (And.intro hp hm)]
  congr 1
  apply replaceGo_fuel
  · simp only [List.length_drop]
    omega
  · exact le_rfl

theorem replaceL_cons_nomatch {pat : Str} (rep : Str) {c : Char} {cs : Str}
    (h : ¬(pat ≠ [] ∧ pat.isPrefixOf (c :: cs))) :
    replaceL pat rep (c :: cs) = c :: replaceL pat rep cs := by
  unfold replaceL
  simp only [List.length_cons, replaceGo, if_neg h]

theorem replaceL_head_match {pat : Str} (rep : Str) (hp : pat ≠ []) (s : Str) :
    replaceL pat rep (pat ++ s) = rep ++ replaceL pat rep s := by
  cases pat with
  | nil => exact absurd rfl hp
  | cons p ps =>
    rw [List.cons_append, replaceL_cons_match rep hp
      (List.isPrefixOf_iff_prefix.mpr (List.cons_append p ps s ▸ List.prefix_append _ s))]
    simp only [List.length_cons, Nat.add_sub_cancel, List.drop_left]

theorem replaceL_skip_head {p0 : Char} {ps : Str} (rep : Str) {c : Char} (hc : c ≠ p0)
    (s : Str) : replaceL (p0 :: ps) rep (c :: s) = c :: replaceL (p0 :: ps) rep s := by
  apply replaceL_cons_nomatch
  intro ⟨_, hpre⟩
  rcases List.isPrefixOf_iff_prefix.mp hpre with ⟨t, ht⟩
  simp only [List.cons_append, List.cons.injEq] at ht
  exact hc ht.1.symm

theorem replaceL_append_clean {p0 : Char} {ps : Str} (rep : Str) {t : Str}
    (ht : ∀ c ∈ t, c ≠ p0) (s : Str) :
    replaceL (p0 :: ps) rep (t ++ s) = t ++ replaceL (p0 :: ps) rep s := by
  induction t with
  | nil => simp
  | cons c cs ih =>
    rw [List.cons_append, replaceL_skip_head rep (ht c (List.mem_cons_self c cs)) (cs ++ s),
        ih (fun d hd => ht d (List.mem_cons_of_mem c hd))]
    rfl

/-! ### Lemmas about `pySplitSlash` and `lastSeg` -/

theorem pySplitSlash_ne_nil (s : Str) : pySplitSlash s ≠ [] := by
  cases s with
  | nil => simp [pySplitSlash]
  | cons c cs =>
    simp only [pySplitSlash]
    cases pySplitSlash cs with
    | nil => simp
    | cons seg rest =>
      by_cases h : c = '/' <;> simp [h]

theorem pySplitSlash_no_slash {f : Str} (h : ∀ c ∈ f, c ≠ '/') : pySplitSlash f = [f] := by
  induction f with
  | nil => rfl
  | cons c cs ih =>
    have ih' := ih (fun d hd => h d (List.mem_cons_of_mem c hd))
    have hc := h c (List.mem_cons_self c cs)
    simp only [pySplitSlash, ih']
    rw [if_neg hc]

theorem lastSeg_no_slash {f : Str} (h : ∀ c ∈ f, c ≠ '/') : lastSeg f = f := by
  unfold lastSeg
  rw [pySplitSlash_no_slash h]
  rfl

theorem getLastD_irrel {α : Type} {l : List α} (h : l ≠ []) (a b : α) :
    l.getLastD a = l.getLastD b := by
  cases l with
  | nil => exact absurd rfl h
  | cons x xs => rw [List.getLastD_cons, List.getLastD_cons]

theorem pySplitSlash_two_of_slash {s : Str} (h : '/' ∈ s) : 2 ≤ (pySplitSlash s).length := by
  induction s with
  | nil => simp at h
  | cons c cs ih =>
    cases hr : pySplitSlash cs with
    | nil => exact absurd hr (pySplitSlash_ne_nil cs)
    | cons seg rest =>
      simp only [pySplitSlash, hr]
      rcases List.mem_cons.mp h with hc | hcs
      · rw [if_pos hc.symm]
        simp
      · have h2 := ih hcs
        rw [hr] at h2
        simp only [List.length_cons] at h2
        by_cases hcc : c = '/'
        · rw [if_pos hcc]
          simp
        · rw [if_neg hcc]
          simp only [List.length_cons]
          omega

theorem lastSeg_append_slash {f : Str} (h : ∀ c ∈ f, c ≠ '/') (d : Str) :
    lastSeg (d ++ '/' :: f) = f := by
  induction d with
  | nil =>
    unfold lastSeg
    simp only [List.nil_append, pySplitSlash, pySplitSlash_no_slash h]
    simp [List.getLastD]
  | cons c cs ih =>
    cases hr : pySplitSlash (cs ++ '/' :: f) with
    | nil => exact absurd hr (pySplitSlash_ne_nil _)
    | cons seg rest =>
      have h2 : 2 ≤ (seg :: rest).length := by
        rw [← hr]
        apply pySplitSlash_two_of_slash
        simp
      have hrest : rest ≠ [] := by
        intro hre
        rw [hre] at h2
        simp at h2
      unfold lastSeg at ih ⊢
      rw [hr] at ih
      rw [List.getLastD_cons] at ih
      have hr' : pySplitSlash (List.append cs ('/' :: f)) = seg :: rest := hr
      simp only [List.cons_append, pySplitSlash, hr, hr']
      by_cases hcc : c = '/'
      · rw [if_pos hcc, List.getLastD_cons, List.getLastD_cons]
        exact ih
      · rw [if_neg hcc, List.getLastD_cons]
        rw [getLastD_irrel hrest (c :: seg) seg]
        exact ih

/-! ### Roundtrip lemmas for the timestamp formats -/

theorem isTsShape_chars {t : Str} (h : isTsShape t) : ∀ c ∈ t, IsDigitC c ∨ c = '_' := by
  unfold isTsShape at h
  split at h
  next y1 y2 y3 y4 mo1 mo2 d1 d2 u hr1 hr2 n1 n2 sc1 sc2 =>
    obtain ⟨hu, hy1, hy2, hy3, hy4, hmo1, hmo2, hd1, hd2, hh1, hh2, hn1, hn2, hs1, hs2⟩ := h
    intro c hc
    simp only [List.mem_cons, List.not_mem_nil, or_false] at hc
    rcases hc with rfl | rfl | rfl | rfl | rfl | rfl | rfl | rfl | rfl | rfl | rfl | rfl | rfl | rfl | rfl
    · exact Or.inl hy1
    · exact Or.inl hy2
    · exact Or.inl hy3
    · exact Or.inl hy4
    · exact Or.inl hmo1
    · exact Or.inl hmo2
    · exact Or.inl hd1
    · exact Or.inl hd2
    · exact Or.inr hu
    · exact Or.inl hh1
    · exact Or.inl hh2
    · exact Or.inl hn1
    · exact Or.inl hn2
    · exact Or.inl hs1
    · exact Or.inl hs2
  next => exact absurd h (by simp)

theorem extract_filename {t : Str} (hs : ∀ c ∈ t, c ≠ 's') (hd : ∀ c ∈ t, c ≠ '.') :
    replaceL (str ".json") [] (replaceL (str "status_") [] (str "status_" ++ (t ++ str ".json"))) = t := by
  rw [replaceL_head_match [] (by decide) (t ++ str ".json")]
  rw [List.nil_append]
  have h1 : replaceL (str "status_") [] (t ++ str ".json") = t ++ replaceL (str "status_") [] (str ".json") := by
    have : str "status_" = 's' :: str "tatus_" := rfl
    rw [this]
    exact replaceL_append_clean [] hs (str ".json")
  rw [h1]
  have h2 : replaceL (str "status_") [] (str ".json") = str ".json" := by decide
  rw [h2]
  have h3 : str ".json" = '.' :: str "json" := rfl
  rw [h3]
  rw [replaceL_append_clean [] hd ('.' :: str "json")]
  have h4 : replaceL ('.' :: str "json") [] ('.' :: str "json") = [] := by decide
  rw [h4, List.append_nil]

theorem tsShape_ne_char {t : Str} (h : isTsShape t) {d : Char}
    (hd : d.toNat < 48 ∨ 57 < d.toNat) (hu : d ≠ '_') : ∀ c ∈ t, c ≠ d := by
  intro c hc
  rcases isTsShape_chars h c hc with hdig | heq
  · exact digit_ne hdig d hd
  · rw [heq]
    exact fun he => hu he.symm

theorem extract_key_roundtrip {t : Str} (h : isTsShape t) (d : Str) :
    extract_timestamp (str "status_" ++ t ++ str ".json") = t ∧
    extract_timestamp (d ++ '/' :: (str "status_" ++ t ++ str ".json")) = t := by
  have hs : ∀ c ∈ t, c ≠ 's' := tsShape_ne_char h (by decide) (by decide)
  have hdot : ∀ c ∈ t, c ≠ '.' := tsShape_ne_char h (by decide) (by decide)
  have hsl : ∀ c ∈ t, c ≠ '/' := tsShape_ne_char h (by decide) (by decide)
  have hstat : ∀ c ∈ str "status_", c ≠ '/' := by decide
  have hjs : ∀ c ∈ str ".json", c ≠ '/' := by decide
  have hfile : ∀ c ∈ str "status_" ++ t ++ str ".json", c ≠ '/' := by
    intro c hc
    rw [List.append_assoc] at hc
    rcases List.mem_append.mp hc with hc1 | hc2
    · exact hstat c hc1
    · rcases List.mem_append.mp hc2 with hc3 | hc4
      · exact hsl c hc3
      · exact hjs c hc4
  constructor
  · unfold extract_timestamp
    rw [lastSeg_no_slash hfile, List.append_assoc]
    exact extract_filename hs hdot
  · unfold extract_timestamp
    rw [lastSeg_append_slash hfile d, List.append_assoc]
    exact extract_filename hs hdot

/-! ### Lemmas about the ledger, the filter and the flow -/

theorem mem_ledger {stamps : List PyDateTime} {s : Str} :
    s ∈ get_already_loaded_timestamps (some stamps) ↔ ∃ dt ∈ stamps, strftime_YmdHMS dt = s := by
  unfold get_already_loaded_timestamps
  rw [List.mem_dedup, List.mem_map]

theorem mem_filter_new_files {all_files loaded : List Str} {k : Str} :
    k ∈ filter_new_files all_files loaded ↔ k ∈ all_files ∧ extract_timestamp k ∉ loaded := by
  unfold filter_new_files
  rw [List.mem_filter]
  simp [List.contains]

theorem length_filterMap_countP {α β : Type} (f : α → Option β) (l : List α) :
    (l.filterMap f).length = l.countP (fun x => (f x).isSome) := by
  induction l with
  | nil => rfl
  | cons x xs ih =>
    rw [List.filterMap_cons, List.countP_cons]
    cases hx : f x <;> simp [hx, ih]

theorem countP_isSome_isNone {α β : Type} (f : α → Option β) (l : List α) :
    l.countP (fun x => (f x).isSome) + l.countP (fun x => (f x).isNone) = l.length := by
  induction l with
  | nil => rfl
  | cons x xs ih =>
    rw [List.countP_cons, List.countP_cons]
    cases hx : f x <;> simp [hx] <;> omega

theorem flow_eq_of_ws_ne_nil {q : Option (List PyDateTime)} {objects : List Str}
    (read : Str → Option Json)
    (hws : filter_new_files (list_json_files objects) (get_already_loaded_timestamps q) ≠ []) :
    load_station_status_flow q objects read =
      ⟨(list_json_files objects).length,
       (filter_new_files (list_json_files objects) (get_already_loaded_timestamps q)).filterMap
         (process_snapshot read),
       (filter_new_files (list_json_files objects) (get_already_loaded_timestamps q)).length -
         ((filter_new_files (list_json_files objects) (get_already_loaded_timestamps q)).filterMap
           (process_snapshot read)).length⟩ := by
  unfold load_station_status_flow
  have hall : ¬(list_json_files objects).isEmpty = true := by
    intro he
    apply hws
    rw [List.isEmpty_iff.mp he]
    rfl
  rw [if_neg hall, if_neg (by rwa [Ne, ← List.isEmpty_iff] at hws)]

theorem transform_ok_values {kvs : List (Str × Json)} {b : Str} {dt : PyDateTime}
    {dataKvs : List (Str × Json)}
    (hstrp : strptime_YmdHMS (extract_timestamp b) = some dt)
    (hdata : dictGetD kvs (str "data") (Json.obj []) = Json.obj dataKvs) :
    transform_to_bigquery_row kvs b = .ok
      ⟨dictGet kvs (str "last_updated"), dictGet kvs (str "ttl"), dictGet kvs (str "version"),
       isoformat dt, dateIsoformat dt,
       jsonDumps (dictGetD dataKvs (str "stations") (Json.arr []))⟩ := by
  unfold transform_to_bigquery_row
  simp only [hstrp, hdata]

theorem transform_valueError {kvs : List (Str × Json)} {b : Str}
    (h : strptime_YmdHMS (extract_timestamp b) = none) :
    transform_to_bigquery_row kvs b = .error .valueError := by
  unfold transform_to_bigquery_row
  simp only [h]

theorem transform_attrError {kvs : List (Str × Json)} {b : Str} {dt : PyDateTime}
    (hstrp : strptime_YmdHMS (extract_timestamp b) = some dt)
    (hobj : ∀ dataKvs, dictGetD kvs (str "data") (Json.obj []) ≠ Json.obj dataKvs) :
    transform_to_bigquery_row kvs b = .error .attributeError := by
  unfold transform_to_bigquery_row
  simp only [hstrp]

theorem transform_ok_iff (kvs : List (Str × Json)) (b : Str) :
    (∃ row, transform_to_bigquery_row kvs b = .ok row) ↔
      ((strptime_YmdHMS (extract_timestamp b)).isSome ∧
       ∃ dataKvs, dictGetD kvs (str "data") (Json.obj []) = Json.obj dataKvs) := by
  constructor
  · rintro ⟨row, hrow⟩
    cases hstrp : strptime_YmdHMS (extract_timestamp b) with
    | none =>
      rw [transform_valueError hstrp] at hrow
      exact absurd hrow (by simp)
    | some dt =>
      refine ⟨rfl, ?_⟩
      by_cases hobj : ∃ dataKvs, dictGetD kvs (str "data") (Json.obj []) = Json.obj dataKvs
      · exact hobj
      · rw [transform_attrError hstrp (by push_neg at hobj; exact hobj)] at hrow
        exact absurd hrow (by simp)
  · rintro ⟨hsome, dataKvs, hdata⟩
    cases hstrp : strptime_YmdHMS (extract_timestamp b) with
    | none =>
      rw [hstrp] at hsome
      simp at hsome
    | some dt =>
      exact ⟨_, transform_ok_values hstrp hdata⟩

theorem transform_ok_fields {kvs : List (Str × Json)} {b : Str} {row : Row}
    (h : transform_to_bigquery_row kvs b = .ok row) :
    ∃ dt, strptime_YmdHMS (extract_timestamp b) = some dt ∧
      row.data_fetched_at = isoformat dt ∧ row.date_partition = dateIsoformat dt := by
  unfold transform_to_bigquery_row at h
  split at h
  · simp at h
  next dt hstrp =>
    split at h
    next dataKvs hdata =>
      injection h with h
      subst h
      exact ⟨dt, hstrp, rfl, rfl⟩
    next => simp at h

theorem process_snapshot_of_bad_key {read : Str → Option Json} {k : Str}
    (h : strptime_YmdHMS (extract_timestamp k) = none) :
    process_snapshot read k = none := by
  unfold process_snapshot
  split
  · rfl
  next kvs _ =>
    rw [transform_valueError h]
    rfl
  next => rfl

/-! ### Lemmas for idempotence of repeated runs -/

theorem transform_ok_all {kvs : List (Str × Json)} {b : Str} {row : Row}
    (h : transform_to_bigquery_row kvs b = .ok row) :
    ∃ dt dataKvs, strptime_YmdHMS (extract_timestamp b) = some dt ∧
      dictGetD kvs (str "data") (Json.obj []) = Json.obj dataKvs ∧
      row = ⟨dictGet kvs (str "last_updated"), dictGet kvs (str "ttl"),
             dictGet kvs (str "version"), isoformat dt, dateIsoformat dt,
             jsonDumps (dictGetD dataKvs (str "stations") (Json.arr []))⟩ := by
  unfold transform_to_bigquery_row at h
  split at h
  · simp at h
  next dt hstrp =>
    split at h
    next dataKvs hdata =>
      injection h with h
      exact ⟨dt, dataKvs, hstrp, hdata, h.symm⟩
    next => simp at h

/-! ### The claims -/

/-- Claim C5: the Ledger Reader returns the set of distinct
`data_fetched_at` values normalized to `YYYYMMDD_HHMMSS`, and returns the
empty set on every query failure (including a missing destination table)
instead of propagating the error. -/
theorem C5_ledger_reader :
    get_already_loaded_timestamps none = [] ∧
    (∀ (stamps : List PyDateTime) (s : Str),
      s ∈ get_already_loaded_timestamps (some stamps) ↔
        ∃ dt ∈ stamps, strftime_YmdHMS dt = s) ∧
    (∀ q : Option (List PyDateTime), (get_already_loaded_timestamps q).Nodup) := by
  refine ⟨rfl, fun stamps s => mem_ledger, fun q => ?_⟩
  cases q with
  | none => simp [get_already_loaded_timestamps]
  | some stamps => exact List.nodup_dedup _

/-- Claim C6: filename grammar round-trip — for every timestamp string `t`
matching `YYYYMMDD_HHMMSS`, building the key `status_` ++ t ++ `.json`
(bare, or under any path ending in `/`) and extracting the timestamp with
the pipeline's extraction returns exactly `t`. -/
theorem C6_filename_roundtrip (t d : Str) (h : isTsShape t) :
    extract_timestamp (str "status_" ++ t ++ str ".json") = t ∧
    extract_timestamp (d ++ '/' :: (str "status_" ++ t ++ str ".json")) = t :=
  extract_key_roundtrip h d

/-- Witness for C6 at the concrete timestamp `20260102_143000` under the
collector's path layout. -/
theorem C6_witness :
    extract_timestamp (str "status_" ++ str "20260102_143000" ++ str ".json") =
      str "20260102_143000" ∧
    extract_timestamp (str "raw/station_status/date=2026-01-02" ++
      '/' :: (str "status_" ++ str "20260102_143000" ++ str ".json")) =
      str "20260102_143000" :=
  C6_filename_roundtrip (str "20260102_143000") (str "raw/station_status/date=2026-01-02")
    (by decide)

/-- Claim C8: `date_partition` is computed from the timestamp parsed from
the key's final filename segment and is independent of any `date=` path
segment: the transformer gives identical results for two keys with the
same filename under different directories, and on success the partition is
the ISO date of the parsed timestamp. -/
theorem C8_date_partition (kvs : List (Str × Json)) (d1 d2 f : Str)
    (hf : ∀ c ∈ f, c ≠ '/') :
    transform_to_bigquery_row kvs (d1 ++ '/' :: f) =
      transform_to_bigquery_row kvs (d2 ++ '/' :: f) ∧
    ∀ row, transform_to_bigquery_row kvs (d1 ++ '/' :: f) = .ok row →
      ∃ dt, strptime_YmdHMS (extract_timestamp (d1 ++ '/' :: f)) = some dt ∧
        row.date_partition = dateIsoformat dt := by
  have hex : ∀ d : Str, extract_timestamp (d ++ '/' :: f) = extract_timestamp f := by
    intro d
    unfold extract_timestamp
    rw [lastSeg_append_slash hf d, lastSeg_no_slash hf]
  constructor
  · unfold transform_to_bigquery_row
    rw [hex d1, hex d2]
  · intro row hrow
    obtain ⟨dt, hstrp, _, hpart⟩ := transform_ok_fields hrow
    exact ⟨dt, hstrp, hpart⟩

/-- Witness for C8: the same filename under two different `date=` path
segments transforms identically. -/
theorem C8_witness :
    transform_to_bigquery_row [] (str "date=2026-01-02" ++ '/' :: str "status_20260102_143000.json") =
      transform_to_bigquery_row [] (str "date=2099-12-31" ++ '/' :: str "status_20260102_143000.json") :=
  (C8_date_partition [] (str "date=2026-01-02") (str "date=2099-12-31")
    (str "status_20260102_143000.json") (by decide)).1

/-- Claim C1: partial-failure isolation — when exactly one key of the
WorkSet fails terminally (read or transform), the run loads `N − 1` rows,
reports exactly 1 skipped item, and is not aborted (`loaded + 1 = N`). -/
theorem C1_partial_failure_isolation (q : Option (List PyDateTime)) (objects : List Str)
    (read : Str → Option Json)
    (h : (filter_new_files (list_json_files objects) (get_already_loaded_timestamps q)).countP
        (fun k => (process_snapshot read k).isNone) = 1) :
    (load_station_status_flow q objects read).loaded.length =
      (filter_new_files (list_json_files objects) (get_already_loaded_timestamps q)).length - 1 ∧
    (load_station_status_flow q objects read).skipped = 1 ∧
    (load_station_status_flow q objects read).loaded.length + 1 =
      (filter_new_files (list_json_files objects) (get_already_loaded_timestamps q)).length := by
  have hne : filter_new_files (list_json_files objects) (get_already_loaded_timestamps q) ≠ [] := by
    intro he
    rw [he] at h
    simp at h
  have hlen := length_filterMap_countP (process_snapshot read)
    (filter_new_files (list_json_files objects) (get_already_loaded_timestamps q))
  have hsum := countP_isSome_isNone (process_snapshot read)
    (filter_new_files (list_json_files objects) (get_already_loaded_timestamps q))
  rw [flow_eq_of_ws_ne_nil read hne]
  dsimp only
  omega

/-- Witness for C1: two keys, the second one's read fails terminally; the
run skips exactly one item. -/
theorem C1_witness :
    (filter_new_files
        (list_json_files [str "a/status_20260102_143000.json", str "a/status_20260102_150000.json"])
        (get_already_loaded_timestamps none)).countP
      (fun k => (process_snapshot
        (fun b => if b = str "a/status_20260102_143000.json" then some (Json.obj []) else none)
        k).isNone) = 1 ∧
    (load_station_status_flow none
      [str "a/status_20260102_143000.json", str "a/status_20260102_150000.json"]
      (fun b => if b = str "a/status_20260102_143000.json" then some (Json.obj []) else none)).skipped = 1 :=
  ⟨by decide,
   (C1_partial_failure_isolation none
     [str "a/status_20260102_143000.json", str "a/status_20260102_150000.json"]
     (fun b => if b = str "a/status_20260102_143000.json" then some (Json.obj []) else none)
     (by decide)).2.1⟩

/-- Counterexample to claim C2 as stated: a payload with no top-level
`data` container does not make the transformer fail with a malformed-
snapshot error; the transformer succeeds and serializes `stations` as
`"[]"`. -/
theorem C2_counterexample :
    transform_to_bigquery_row [] (str "raw/station_status/status_20260102_143000.json") =
      Except.ok ⟨none, none, none, str "2026-01-02T14:30:00", str "2026-01-02", str "[]"⟩ := rfl

/-- Claim C2 (amended): the transformer does not reject payloads missing
the top-level `data` container — it succeeds and serializes `stations` as
the empty list `"[]"`; and it also succeeds (does not reject) when the
station list is present but empty, again producing `stations = "[]"`. -/
theorem C2_amended (kvs : List (Str × Json)) (key : Str) (dt : PyDateTime)
    (h : strptime_YmdHMS (extract_timestamp key) = some dt) :
    (dictGet kvs (str "data") = none →
      ∃ row, transform_to_bigquery_row kvs key = .ok row ∧ row.stations = str "[]") ∧
    (∀ dataKvs, dictGet kvs (str "data") = some (Json.obj dataKvs) →
      dictGet dataKvs (str "stations") = some (Json.arr []) →
      ∃ row, transform_to_bigquery_row kvs key = .ok row ∧ row.stations = str "[]") := by
  constructor
  · intro hd
    refine ⟨_, @transform_ok_values kvs key dt [] h (by unfold dictGetD; rw [hd]; rfl), rfl⟩
  · intro dataKvs hd hs
    refine ⟨_, @transform_ok_values kvs key dt dataKvs h (by unfold dictGetD; rw [hd]; rfl), ?_⟩
    show jsonDumps (dictGetD dataKvs (str "stations") (Json.arr [])) = str "[]"
    unfold dictGetD
    rw [hs]
    rfl

/-- Witness for C2 at a concrete key and the empty payload. -/
theorem C2_witness :
    strptime_YmdHMS (extract_timestamp (str "status_20260102_143000.json")) =
      some ⟨2026, 1, 2, 14, 30, 0⟩ ∧
    (dictGet [] (str "data") = none →
      ∃ row, transform_to_bigquery_row [] (str "status_20260102_143000.json") = .ok row ∧
        row.stations = str "[]") :=
  ⟨by decide,
   (C2_amended [] (str "status_20260102_143000.json") ⟨2026, 1, 2, 14, 30, 0⟩ (by decide)).1⟩

/-- Counterexample to claim C4 as stated: a key that does not match the
`status_<YYYYMMDD_HHMMSS>.json` grammar is not skipped by the Filter — it
is included in the Filter's output. -/
theorem C4_counterexample :
    strptime_YmdHMS (extract_timestamp (str "raw/station_status/garbage.json")) = none ∧
    filter_new_files [str "raw/station_status/garbage.json"] [] =
      [str "raw/station_status/garbage.json"] := by
  constructor
  · rfl
  · rfl

/-- Claim C4 (amended): the Filter computes exactly the set difference
over extracted timestamps, but performs no grammar validation: a key
whose name does not match the grammar passes the Filter (when its
extracted string is not in the ledger) and reaches the orchestrator's
per-item processing step, which skips it only when `strptime` rejects
the extracted string — a non-grammar key whose extracted string
`strptime` still parses (optional leading zeros) is loaded, not
skipped.  In either case the batch is not aborted. -/
theorem C4_amended :
    (∀ (all_files loaded : List Str) (k : Str),
      k ∈ filter_new_files all_files loaded ↔
        k ∈ all_files ∧ extract_timestamp k ∉ loaded) ∧
    (∀ (read : Str → Option Json) (k : Str),
      strptime_YmdHMS (extract_timestamp k) = none → process_snapshot read k = none) ∧
    (∀ (q : Option (List PyDateTime)) (objects : List Str) (read : Str → Option Json),
      filter_new_files (list_json_files objects) (get_already_loaded_timestamps q) ≠ [] →
      (load_station_status_flow q objects read).loaded =
        (filter_new_files (list_json_files objects) (get_already_loaded_timestamps q)).filterMap
          (process_snapshot read)) ∧
    process_snapshot (fun _ => some (Json.obj []))
        (str "raw/station_status/status_2026102_143000.json") =
      some ⟨none, none, none, str "2026-10-02T14:30:00", str "2026-10-02", str "[]"⟩ := by
  refine ⟨fun _ _ _ => mem_filter_new_files,
          fun read k h => process_snapshot_of_bad_key h, ?_, rfl⟩
  intro q objects read hws
  rw [flow_eq_of_ws_ne_nil read hws]

/-- Witness for C4: the non-matching key is skipped at the per-item step. -/
theorem C4_witness :
    strptime_YmdHMS (extract_timestamp (str "a/garbage.json")) = none ∧
    process_snapshot (fun _ => some (Json.obj [])) (str "a/garbage.json") = none :=
  ⟨by decide,
   C4_amended.2.1 (fun _ => some (Json.obj [])) (str "a/garbage.json") (by decide)⟩

/-- Claim C7: concrete scenario — with exactly the keys for
`20260102_143000` and `20260102_150000` in the store and `20260102_143000`
already in the ledger, a run loads exactly one row whose `data_fetched_at`
is `2026-01-02T15:00:00` and reports candidates=2, loaded=1, skipped=0. -/
theorem C7_concrete_scenario :
    load_station_status_flow (some [⟨2026, 1, 2, 14, 30, 0⟩])
      [str "raw/station_status/date=2026-01-02/status_20260102_143000.json",
       str "raw/station_status/date=2026-01-02/status_20260102_150000.json"]
      (fun _ => some (Json.obj [(str "last_updated", Json.num 1767366000),
        (str "ttl", Json.num 60), (str "version", Json.str (str "2.3")),
        (str "data", Json.obj [(str "stations", Json.arr [])])])) =
      ⟨2,
       [⟨some (Json.num 1767366000), some (Json.num 60), some (Json.str (str "2.3")),
         str "2026-01-02T15:00:00", str "2026-01-02", str "[]"⟩],
       0⟩ := rfl

/-- Counterexample to claim C9 as stated: the transformer is not total in
the payload — a dictionary whose `data` key holds a non-dict value makes
it raise (`AttributeError` from `.get` on a non-dict), even though the
blob name's timestamp parses. -/
theorem C9_counterexample :
    transform_to_bigquery_row [(str "data", Json.num 5)]
      (str "raw/station_status/status_20260102_143000.json") =
      Except.error TransformError.attributeError := rfl

/-- Claim C9 (amended): the transformer succeeds exactly when the blob
name's extracted timestamp parses and the `data` value (defaulting to an
empty dict when absent) is a dict; on success, absent `last_updated`,
`ttl` and `version` map to null fields and an absent `data` container maps
to `stations = "[]"`. -/
theorem C9_amended (kvs : List (Str × Json)) (key : Str) :
    ((∃ row, transform_to_bigquery_row kvs key = .ok row) ↔
      ((strptime_YmdHMS (extract_timestamp key)).isSome ∧
       ∃ dataKvs, dictGetD kvs (str "data") (Json.obj []) = Json.obj dataKvs)) ∧
    (∀ row, transform_to_bigquery_row kvs key = .ok row →
      row.last_updated = dictGet kvs (str "last_updated") ∧
      row.ttl = dictGet kvs (str "ttl") ∧
      row.version = dictGet kvs (str "version") ∧
      (dictGet kvs (str "data") = none → row.stations = str "[]")) := by
  refine ⟨transform_ok_iff kvs key, ?_⟩
  intro row hrow
  obtain ⟨dt, dataKvs, hstrp, hdata, hrow_eq⟩ := transform_ok_all hrow
  subst hrow_eq
  refine ⟨rfl, rfl, rfl, ?_⟩
  intro hd
  have hobj : Json.obj ([] : List (Str × Json)) = Json.obj dataKvs := by
    rw [← hdata]
    unfold dictGetD
    rw [hd]
    rfl
  injection hobj with hobj
  subst hobj
  rfl

/-- Witness for C9: a payload with no keys transforms successfully under a
well-formed blob name. -/
theorem C9_witness :
    ∃ row, transform_to_bigquery_row [] (str "status_20260102_143000.json") = .ok row :=
  (C9_amended [] (str "status_20260102_143000.json")).1.mpr ⟨by decide, [], rfl⟩
